import Mathlib

/-!
Shallow embedding of the identity, state-reconciliation and resource-union
codec subsystem of the terraform-provider-mongodb-driver repository.

Terraform framework optional values (`types.String`, `types.Bool`) are
modelled as `Option String` / `Option Bool`: `none` is the null value,
`Option.isNone` models `IsNull()`, and `Option.getD ""` / `Option.getD false`
model `ValueString()` / `ValueBool()` (which return the zero value on null).

Go slices and maps that the merge code compares against `nil` are modelled as
`Option (List _)`: `none` is the nil slice/map, `some xs` a non-nil one.
-/

set_option autoImplicit false

namespace MongodbProvider

/-- Model of Go `strings.Cut(s, sep)` specialised to a one-character
separator, on the character-list level: returns `some (before, after)` when
the separator occurs, splitting at its first occurrence, else `none`. -/
def cutList (sep : Char) : List Char → Option (List Char × List Char)
  | [] => none
  | c :: cs =>
    if c = sep then some ([], cs)
    else (cutList sep cs).map fun p => (c :: p.1, p.2)

/-- Model of Go `strings.Cut(s, string(sep))`: `(before, after, found)`.
When the separator is absent Go returns `(s, "", false)`. -/
def stringsCut (s : String) (sep : Char) : String × String × Bool :=
  match cutList sep s.toList with
  | some (b, a) => (b.asString, a.asString, true)
  | none => (s, "", false)

/-- Model of `provider.UserRoleResourceModel`. -/
structure UserRoleResourceModel where
  role : Option String
  db : Option String
deriving DecidableEq, Repr

/-- Model of `provider.UserResourceModel` (the fields read by the logic under
verification; `password` is carried along for shape fidelity). -/
structure UserResourceModel where
  id : Option String
  user : Option String
  db : Option String
  password : Option String
  customData : Option (List (String × Option String))
  roles : Option (List UserRoleResourceModel)
  mechanisms : Option (List (Option String))

/-- Model of `UserResourceModel.userAndDB`: resolve `(user, db)` from the
attributes when both are non-null and non-empty, else parse the composite
`id` at the first `.`. Error values are the Go error message strings. -/
def userAndDB (u : UserResourceModel) : Except String (String × String) :=
  if ¬u.user.isNone ∧ ¬u.db.isNone ∧ u.user.getD "" ≠ "" ∧ u.db.getD "" ≠ "" then
    Except.ok (u.user.getD "", u.db.getD "")
  else if u.id.isNone ∨ u.id.getD "" = "" then
    Except.error "missing user ID"
  else
    match stringsCut (u.id.getD "") '.' with
    | (_, _, false) => Except.error "malformed user ID, missing dot separator on db and user"
    | (db, user, true) =>
      if db = "" then Except.error "malformed user ID, missing db"
      else if user = "" then Except.error "malformed user ID, missing user"
      else Except.ok (user, db)

/-- Model of `provider.RoleRefResourceModel`. -/
structure RoleRefResourceModel where
  role : Option String
  db : Option String
deriving DecidableEq, Repr

/-- Model of `provider.PrivilegeResourceModel`, declared later pieces apart:
the resource sub-model is `ResourceResourceModel` below. -/
structure ResourceResourceModel where
  cluster : Option Bool
  anyResource : Option Bool
  db : Option String
  collection : Option String
deriving DecidableEq, Repr

structure PrivilegeResourceModel where
  resource : ResourceResourceModel
  actions : Option (List (Option String))
deriving DecidableEq, Repr

/-- Model of `provider.RoleResourceModel` (timeouts omitted: plumbing). -/
structure RoleResourceModel where
  id : Option String
  role : Option String
  db : Option String
  roles : Option (List RoleRefResourceModel)
  privileges : Option (List PrivilegeResourceModel)

/-- Model of `RoleResourceModel.roleAndDB`; same structure as `userAndDB`
with the role-flavoured error messages. -/
def roleAndDB (u : RoleResourceModel) : Except String (String × String) :=
  if ¬u.role.isNone ∧ ¬u.db.isNone ∧ u.role.getD "" ≠ "" ∧ u.db.getD "" ≠ "" then
    Except.ok (u.role.getD "", u.db.getD "")
  else if u.id.isNone ∨ u.id.getD "" = "" then
    Except.error "missing role ID"
  else
    match stringsCut (u.id.getD "") '.' with
    | (_, _, false) => Except.error "malformed role ID, missing dot separator on db and role"
    | (db, role, true) =>
      if db = "" then Except.error "malformed role ID, missing db"
      else if role = "" then Except.error "malformed role ID, missing role"
      else Except.ok (role, db)

/-- An import-only user model: only `id` set, as in the import flow. -/
def importUserModel (id : String) : UserResourceModel :=
  ⟨some id, none, none, none, none, none, none⟩

/-- An import-only role model: only `id` set. -/
def importRoleModel (id : String) : RoleResourceModel :=
  ⟨some id, none, none, none, none⟩

/-- A BSON value as seen by the union decoder after `rv.Unmarshal(&m)` into a
Go `map[string]any`: strings, booleans, numbers, embedded documents. -/
inductive BVal where
  | str (s : String)
  | bool (b : Bool)
  | int (n : Int)
  | doc (fields : List (String × BVal))

/-- The Go dynamic type name reported by `%T` for each decoded BSON value. -/
def goTypeName : BVal → String
  | .str _ => "string"
  | .bool _ => "bool"
  | .int _ => "int32"
  | .doc _ => "primitive.D"

/-- Model of `mongodb.Resource`, the closed union of the four resource
variants (`ResourceAny`, `ResourceCluster`, `ResourceCollection`,
`ResourceSystemBuckets`). The trivial `ResourceWrapper` struct is collapsed
into the union value it wraps. -/
inductive Resource where
  | resourceAny (anyResource : Bool)
  | resourceCluster (cluster : Bool)
  | resourceCollection (db collection : String)
  | resourceSystemBuckets (systemBuckets : String)
deriving DecidableEq, Repr

/-- Model of `ResourceWrapper.MarshalBSONValue`: `bson.MarshalValue(r.Union)`
writes exactly the tagged fields of the active variant. -/
def marshalResource : Resource → List (String × BVal)
  | .resourceAny b => [("anyResource", .bool b)]
  | .resourceCluster b => [("cluster", .bool b)]
  | .resourceCollection db col => [("db", .str db), ("collection", .str col)]
  | .resourceSystemBuckets s => [("system_buckets", .str s)]

/-- Model of the mongo driver unmarshalling one string struct field: a
missing key leaves the zero value `""`, a string is taken as-is, any other
type is a decode error. -/
def unmarshalStringField (m : List (String × BVal)) (key : String) : Except String String :=
  match m.lookup key with
  | none => Except.ok ""
  | some (.str s) => Except.ok s
  | some v =>
    Except.error ("error decoding key " ++ key ++ ": cannot decode " ++ goTypeName v ++
      " into a string type")

/-- Model of `rv.Unmarshal(&col)` for `col : ResourceCollection` (bson tags
`db` and `collection`). -/
def unmarshalResourceCollection (m : List (String × BVal)) : Except String Resource := do
  let db ← unmarshalStringField m "db"
  let col ← unmarshalStringField m "collection"
  pure (.resourceCollection db col)

/-- Model of `ResourceWrapper.UnmarshalBSONValue` on the decoded field map:
probe `system_buckets`, then `anyResource`, then `cluster`, in that order,
else fall back to decoding the whole document as `ResourceCollection`.
Error values are the Go error message strings. -/
def unmarshalResource (m : List (String × BVal)) : Except String Resource :=
  match m.lookup "system_buckets" with
  | some (.str buckets) => Except.ok (.resourceSystemBuckets buckets)
  | some v => Except.error ("resource.system_buckets must be string, got " ++ goTypeName v)
  | none =>
    match m.lookup "anyResource" with
    | some (.bool b) => Except.ok (.resourceAny b)
    | some v => Except.error ("resource.anyResource must be bool, got " ++ goTypeName v)
    | none =>
      match m.lookup "cluster" with
      | some (.bool b) => Except.ok (.resourceCluster b)
      | some v => Except.error ("resource.cluster must be bool, got " ++ goTypeName v)
      | none => unmarshalResourceCollection m

/-- Model of `mongodb.RoleDBRef`: a role reference with explicit database. -/
structure RoleDBRef where
  role : String
  db : String
deriving DecidableEq, Repr

/-- Model of `mongodb.Privilege`. -/
structure Privilege where
  resource : Resource
  actions : List String
deriving DecidableEq, Repr

/-- Model of `mongodb.User` as returned by `usersInfo` (the `userId` binary
blob is omitted: never read by the logic under verification). -/
structure User where
  id : String
  user : String
  db : String
  customData : List (String × String)
  roles : List RoleDBRef
  mechanisms : List String
deriving DecidableEq, Repr

/-- Model of `mongodb.Role` as returned by `rolesInfo`. -/
structure Role where
  id : String
  role : String
  db : String
  privileges : List Privilege
  isBuiltin : Bool
  roles : List RoleDBRef
  inheritedRoles : List RoleDBRef
  inheritedPrivileges : List Privilege
deriving DecidableEq, Repr

/-- Model of `provider.toTypesStringSlice`: wrap every element in a value
(non-null) terraform string. -/
def toTypesStringSlice (slice : List String) : List (Option String) :=
  slice.map fun s => some s

/-- Model of `provider.toTypesStringMap`. -/
def toTypesStringMap (m : List (String × String)) : List (String × Option String) :=
  m.map fun kv => (kv.1, some kv.2)

/-- Model of `provider.toTypesUserRoleResource`: take the fetched reference,
but reset its database to null when the prior reference's database was null. -/
def toTypesUserRoleResource (oldRole : UserRoleResourceModel) (role : RoleDBRef) :
    UserRoleResourceModel :=
  let newRole : UserRoleResourceModel := { role := some role.role, db := some role.db }
  if oldRole.db.isNone then { newRole with db := none } else newRole

/-- Model of `provider.toTypesUserRoleResourceSlice`: Go iterates over the
fetched list and indexes `oldRoles[i]` at every position; an index beyond
`len(oldRoles)` panics, modelled here as `none`. -/
def toTypesUserRoleResourceSlice (oldRoles : List UserRoleResourceModel)
    (roles : List RoleDBRef) : Option (List UserRoleResourceModel) :=
  match roles, oldRoles with
  | [], _ => some []
  | _ :: _, [] => none
  | r :: rs, o :: os =>
    (toTypesUserRoleResourceSlice os rs).map fun tail => toTypesUserRoleResource o r :: tail

/-- Model of `provider.toTypesRoleRefResource` (same algorithm as the user
flavour, on `RoleRefResourceModel`). -/
def toTypesRoleRefResource (oldRole : RoleRefResourceModel) (role : RoleDBRef) :
    RoleRefResourceModel :=
  let newRole : RoleRefResourceModel := { role := some role.role, db := some role.db }
  if oldRole.db.isNone then { newRole with db := none } else newRole

/-- Model of `provider.toTypesRoleRefResourceSlice`; out-of-bounds indexing
of the prior list (Go panic) is modelled as `none`. -/
def toTypesRoleRefResourceSlice (oldRoles : List RoleRefResourceModel)
    (roles : List RoleDBRef) : Option (List RoleRefResourceModel) :=
  match roles, oldRoles with
  | [], _ => some []
  | _ :: _, [] => none
  | r :: rs, o :: os =>
    (toTypesRoleRefResourceSlice os rs).map fun tail => toTypesRoleRefResource o r :: tail

/-- Model of `ResourceResourceModel.toResource`: cluster wins when non-null
and true, then any_resource, else a collection resource from the string
attributes (null reads as `""`). -/
def ResourceResourceModel.toResource (r : ResourceResourceModel) : Resource :=
  if ¬r.cluster.isNone ∧ r.cluster.getD false then .resourceCluster true
  else if ¬r.anyResource.isNone ∧ r.anyResource.getD false then .resourceAny true
  else .resourceCollection (r.db.getD "") (r.collection.getD "")

/-- Model of `provider.toTypesResourceResource`: each union variant maps to a
model with exactly its own attributes set; the system-buckets variant has no
declarative counterpart and is an error (`%T` prints the Go type name). -/
def toTypesResourceResource : Resource → Except String ResourceResourceModel
  | .resourceCluster b =>
    Except.ok { cluster := some b, anyResource := none, db := none, collection := none }
  | .resourceAny b =>
    Except.ok { cluster := none, anyResource := some b, db := none, collection := none }
  | .resourceCollection db col =>
    Except.ok { cluster := none, anyResource := none, db := some db, collection := some col }
  | .resourceSystemBuckets _ =>
    Except.error "unsupported resource type: mongodb.ResourceSystemBuckets"

/-- Model of `provider.toTypesPrivilegeResource`. -/
def toTypesPrivilegeResource (priv : Privilege) : Except String PrivilegeResourceModel := do
  let resource ← toTypesResourceResource priv.resource
  pure { resource := resource, actions := some (toTypesStringSlice priv.actions) }

/-- Model of `provider.toTypesPrivilegeResourceSlice`: convert in order,
stopping at the first error. -/
def toTypesPrivilegeResourceSlice (privileges : List Privilege) :
    Except String (List PrivilegeResourceModel) :=
  privileges.mapM toTypesPrivilegeResource

/-- Model of `UserResourceModel.applyUser`: scalar identity fields are
overwritten from the fetched user; each nil (null) collection field is left
nil, each non-nil one is replaced by the converted fetched value. A Go panic
in the positional role merge is modelled as `none`. -/
def applyUser (u : UserResourceModel) (user : User) : Option UserResourceModel := do
  let customData := match u.customData with
    | none => none
    | some _ => some (toTypesStringMap user.customData)
  let roles : Option (List UserRoleResourceModel) ← match u.roles with
    | none => some none
    | some oldRoles => (toTypesUserRoleResourceSlice oldRoles user.roles).map some
  let mechanisms := match u.mechanisms with
    | none => none
    | some _ => some (toTypesStringSlice user.mechanisms)
  pure { u with id := some user.id, user := some user.user, db := some user.db,
                customData := customData, roles := roles, mechanisms := mechanisms }

/-- Model of `RoleResourceModel.applyRole`: like `applyUser`, and the
privilege conversion can fail, aborting the merge with that error; the Go
panic of the positional role merge is modelled as a distinct error value. -/
def applyRole (u : RoleResourceModel) (role : Role) : Except String RoleResourceModel := do
  let roles : Option (List RoleRefResourceModel) ← match u.roles with
    | none => Except.ok none
    | some oldRoles =>
      match toTypesRoleRefResourceSlice oldRoles role.roles with
      | some merged => Except.ok (some merged)
      | none => Except.error "runtime error: index out of range"
  let privileges ← match u.privileges with
    | none => Except.ok none
    | some _ => (toTypesPrivilegeResourceSlice role.privileges).map some
  pure { u with id := some role.id, role := some role.role, db := some role.db,
                roles := roles, privileges := privileges }

/-- Decoded `usersInfo` command response (the fields read by `runUsersInfo`):
the acknowledgement flag and the entity list. -/
structure UsersInfoResponse where
  ok : Int
  users : List User
deriving DecidableEq, Repr

/-- Decoded `rolesInfo` command response. -/
structure RolesInfoResponse where
  ok : Int
  roles : List Role
deriving DecidableEq, Repr

/-- The error taxonomy of the `mongodb` package as seen by these lookups:
driver errors from `RunCommand`/`Decode` (outside this core), `ErrNotOK`
from `validateResponse`, and the distinguished `ErrNotFound`. -/
inductive MongoError where
  | driver (msg : String)
  | errNotOK (ok : Int)
  | errNotFound
deriving DecidableEq, Repr

/-- Model of `mongodb.validateResponse`: fail with `ErrNotOK` unless the
response reports `ok == 1`. -/
def validateResponse (ok : Int) : Except MongoError Unit :=
  if ok ≠ 1 then Except.error (.errNotOK ok) else Except.ok ()

/-- Model of `Client.runUsersInfo`, with the outcome of the network
round-trip (`RunCommand` + `Decode`) as input: propagate a driver error,
validate the acknowledgement, return the user list. -/
def runUsersInfo (response : Except String UsersInfoResponse) :
    Except MongoError (List User) :=
  match response with
  | .error e => Except.error (.driver e)
  | .ok resp => do
    validateResponse resp.ok
    pure resp.users

/-- Model of `Client.runUsersInfoSingle` (the body of `GetDBUser` after the
connect step): `ErrNotFound` on an empty list, else the first user. -/
def runUsersInfoSingle (response : Except String UsersInfoResponse) :
    Except MongoError User :=
  match runUsersInfo response with
  | .error e => Except.error e
  | .ok users =>
    match users with
    | [] => Except.error .errNotFound
    | u :: _ => Except.ok u

/-- Model of `Client.runRolesInfo`. -/
def runRolesInfo (response : Except String RolesInfoResponse) :
    Except MongoError (List Role) :=
  match response with
  | .error e => Except.error (.driver e)
  | .ok resp => do
    validateResponse resp.ok
    pure resp.roles

/-- Model of `Client.runRolesInfoSingle` (the body of `GetDBRole` after the
connect step). -/
def runRolesInfoSingle (response : Except String RolesInfoResponse) :
    Except MongoError Role :=
  match runRolesInfo response with
  | .error e => Except.error e
  | .ok roles =>
    match roles with
    | [] => Except.error .errNotFound
    | r :: _ => Except.ok r

/-- Spec-side characterisation: the portion of `s` before the first `.`. -/
def beforeDot (s : String) : String :=
  (s.toList.takeWhile (fun c => c != '.')).asString

/-- Spec-side characterisation: the portion of `s` after the first `.`. -/
def afterDot (s : String) : String :=
  ((s.toList.dropWhile (fun c => c != '.')).tail).asString

example : userAndDB (importUserModel "sales.alice") = Except.ok ("alice", "sales") := by rfl
example : roleAndDB (importRoleModel "sales.reader") = Except.ok ("reader", "sales") := by rfl
example : userAndDB (importUserModel "a.b.c") = Except.ok ("b.c", "a") := by rfl
example : userAndDB (importUserModel "nodot") =
    Except.error "malformed user ID, missing dot separator on db and user" := by rfl
example : userAndDB (importUserModel ".x") = Except.error "malformed user ID, missing db" := by rfl
example : userAndDB (importUserModel "x.") = Except.error "malformed user ID, missing user" := by rfl
example : userAndDB (importUserModel "") = Except.error "missing user ID" := by rfl

end MongodbProvider

namespace MongodbProvider

theorem cutList_eq_none_iff (sep : Char) (l : List Char) :
    cutList sep l = none ↔ sep ∉ l := by
  induction l with
  | nil => simp [cutList]
  | cons c cs ih =>
    by_cases h : c = sep
    · subst h; simp [cutList]
    · simp [cutList, h, Option.map_eq_none', ih, Ne.symm h]

theorem cutList_append_not_mem (sep : Char) (l1 l2 : List Char) (h : sep ∉ l1) :
    cutList sep (l1 ++ sep :: l2) = some (l1, l2) := by
  induction l1 with
  | nil => simp [cutList]
  | cons c cs ih =>
    simp only [List.mem_cons, not_or] at h
    have hcs : c ≠ sep := fun hh => h.1 hh.symm
    simp [cutList, hcs, ih h.2]

theorem cutList_of_mem (sep : Char) (l : List Char) (h : sep ∈ l) :
    cutList sep l =
      some (l.takeWhile (fun c => c != sep), (l.dropWhile (fun c => c != sep)).tail) := by
  induction l with
  | nil => cases h
  | cons c cs ih =>
    by_cases hc : c = sep
    · subst hc; simp [cutList]
    · have hmem : sep ∈ cs := by
        cases List.mem_cons.mp h with
        | inl h1 => exact absurd h1.symm hc
        | inr h2 => exact h2
      simp [cutList, hc, ih hmem, List.takeWhile_cons, List.dropWhile_cons]

theorem stringsCut_not_mem (s : String) (h : '.' ∉ s.toList) :
    stringsCut s '.' = (s, "", false) := by
  have h2 : cutList '.' s.data = none := (cutList_eq_none_iff '.' s.toList).mpr h
  simp [stringsCut, String.toList, h2]

theorem stringsCut_of_mem (s : String) (h : '.' ∈ s.toList) :
    stringsCut s '.' = (beforeDot s, afterDot s, true) := by
  have h2 : cutList '.' s.data =
      some (s.data.takeWhile (fun c => c != '.'), (s.data.dropWhile (fun c => c != '.')).tail) :=
    cutList_of_mem '.' s.toList h
  simp [stringsCut, String.toList, h2, beforeDot, afterDot]

theorem toList_eq_nil_iff (s : String) : s.toList = [] ↔ s = "" := by
  constructor
  · intro h
    have h2 := String.asString_toList s
    rw [h] at h2
    rw [← h2]
    rfl
  · rintro rfl; rfl


/-- C1: the claim's round-trip fails when the database itself contains the
separator: with database `"a.b"` (non-empty) and name `"c"` (non-empty, no
dot), the formatted identity `"a.b.c"` resolves through the id-parsing path
to `("b.c", "a")`, not `("c", "a.b")` — the split is at the FIRST dot, so it
is the database, not the name, that must be dot-free. -/
theorem c1_identity_roundtrip_counterexample :
    userAndDB (importUserModel ("a.b" ++ "." ++ "c")) = Except.ok ("b.c", "a") ∧
    roleAndDB (importRoleModel ("a.b" ++ "." ++ "c")) = Except.ok ("b.c", "a") ∧
    Except.ok ("b.c", "a") ≠ (Except.ok ("c", "a.b") : Except String (String × String)) := by
  refine ⟨rfl, rfl, ?_⟩
  intro h
  injection h with h2
  exact (by decide : ¬(("b.c", "a") = ("c", "a.b"))) h2

/-- C1 (amended): identity round-trip holds once the database is also
required to contain no `.`: for every `(name, database)` with both non-empty
and both dot-free, resolving `database ++ "." ++ name` through the
id-parsing path of `userAndDB`/`roleAndDB` (name/database attributes unset)
returns exactly `(name, database)`. -/
theorem c1_identity_roundtrip (name db : String) (hdb : db ≠ "")
    (hdbdot : '.' ∉ db.toList) (hname : name ≠ "") (hnamedot : '.' ∉ name.toList) :
    userAndDB (importUserModel (db ++ "." ++ name)) = Except.ok (name, db) ∧
    roleAndDB (importRoleModel (db ++ "." ++ name)) = Except.ok (name, db) := by
  have hdbdot2 : '.' ∉ db.data := hdbdot
  have hlist : (db ++ "." ++ name).data = db.data ++ '.' :: name.data := by
    simp [String.data_append]
  have hid_ne : db ++ "." ++ name ≠ "" := by
    intro hemp
    have h2 := congrArg String.data hemp
    rw [hlist] at h2
    simp at h2
  have hcl : cutList '.' (db ++ "." ++ name).data = some (db.data, name.data) := by
    rw [hlist]
    exact cutList_append_not_mem '.' db.data name.data hdbdot2
  have e1 : db.data.asString = db := String.asString_toList db
  have e2 : name.data.asString = name := String.asString_toList name
  have hcut : stringsCut (db ++ "." ++ name) '.' = (db, name, true) := by
    unfold stringsCut
    rw [show (db ++ "." ++ name).toList = (db ++ "." ++ name).data from rfl, hcl]
    show (db.data.asString, name.data.asString, true) = (db, name, true)
    rw [e1, e2]
  constructor
  · simp only [userAndDB, importUserModel]
    rw [if_neg (by simp), if_neg (by simp [hid_ne])]
    simp only [Option.getD_some]
    rw [hcut]
    simp [hdb, hname]
  · simp only [roleAndDB, importRoleModel]
    rw [if_neg (by simp), if_neg (by simp [hid_ne])]
    simp only [Option.getD_some]
    rw [hcut]
    simp [hdb, hname]

/-- C1 witness: the amended round-trip at `name = "alice"`, `db = "sales"`. -/
theorem c1_identity_roundtrip_witness :
    userAndDB (importUserModel ("sales" ++ "." ++ "alice")) = Except.ok ("alice", "sales") ∧
    roleAndDB (importRoleModel ("sales" ++ "." ++ "alice")) = Except.ok ("alice", "sales") :=
  c1_identity_roundtrip "alice" "sales" (by decide) (by decide) (by decide) (by decide)

theorem userAndDB_fallback (u : UserResourceModel)
    (h : ¬(¬u.user.isNone ∧ ¬u.db.isNone ∧ u.user.getD "" ≠ "" ∧ u.db.getD "" ≠ "")) :
    (u.id.isNone ∨ u.id.getD "" = "" → userAndDB u = Except.error "missing user ID") ∧
    ∀ s, u.id = some s → s ≠ "" →
      ('.' ∉ s.toList →
        userAndDB u = Except.error "malformed user ID, missing dot separator on db and user") ∧
      ('.' ∈ s.toList → beforeDot s = "" →
        userAndDB u = Except.error "malformed user ID, missing db") ∧
      ('.' ∈ s.toList → beforeDot s ≠ "" → afterDot s = "" →
        userAndDB u = Except.error "malformed user ID, missing user") ∧
      ('.' ∈ s.toList → beforeDot s ≠ "" → afterDot s ≠ "" →
        userAndDB u = Except.ok (afterDot s, beforeDot s)) := by
  constructor
  · intro hid
    simp only [userAndDB]
    rw [if_neg h, if_pos hid]
  · intro s hs hne
    have hid : ¬(u.id.isNone ∨ u.id.getD "" = "") := by
      rw [hs]
      simp [hne]
    refine ⟨?_, ?_, ?_, ?_⟩
    · intro hnotin
      simp only [userAndDB]
      rw [if_neg h, if_neg hid, hs]
      simp only [Option.getD_some]
      rw [stringsCut_not_mem s hnotin]
    · intro hin hb
      simp only [userAndDB]
      rw [if_neg h, if_neg hid, hs]
      simp only [Option.getD_some]
      rw [stringsCut_of_mem s hin]
      simp [hb]
    · intro hin hb ha
      simp only [userAndDB]
      rw [if_neg h, if_neg hid, hs]
      simp only [Option.getD_some]
      rw [stringsCut_of_mem s hin]
      simp [hb, ha]
    · intro hin hb ha
      simp only [userAndDB]
      rw [if_neg h, if_neg hid, hs]
      simp only [Option.getD_some]
      rw [stringsCut_of_mem s hin]
      simp [hb, ha]

theorem roleAndDB_fallback (r : RoleResourceModel)
    (h : ¬(¬r.role.isNone ∧ ¬r.db.isNone ∧ r.role.getD "" ≠ "" ∧ r.db.getD "" ≠ "")) :
    (r.id.isNone ∨ r.id.getD "" = "" → roleAndDB r = Except.error "missing role ID") ∧
    ∀ s, r.id = some s → s ≠ "" →
      ('.' ∉ s.toList →
        roleAndDB r = Except.error "malformed role ID, missing dot separator on db and role") ∧
      ('.' ∈ s.toList → beforeDot s = "" →
        roleAndDB r = Except.error "malformed role ID, missing db") ∧
      ('.' ∈ s.toList → beforeDot s ≠ "" → afterDot s = "" →
        roleAndDB r = Except.error "malformed role ID, missing role") ∧
      ('.' ∈ s.toList → beforeDot s ≠ "" → afterDot s ≠ "" →
        roleAndDB r = Except.ok (afterDot s, beforeDot s)) := by
  constructor
  · intro hid
    simp only [roleAndDB]
    rw [if_neg h, if_pos hid]
  · intro s hs hne
    have hid : ¬(r.id.isNone ∨ r.id.getD "" = "") := by
      rw [hs]
      simp [hne]
    refine ⟨?_, ?_, ?_, ?_⟩
    · intro hnotin
      simp only [roleAndDB]
      rw [if_neg h, if_neg hid, hs]
      simp only [Option.getD_some]
      rw [stringsCut_not_mem s hnotin]
    · intro hin hb
      simp only [roleAndDB]
      rw [if_neg h, if_neg hid, hs]
      simp only [Option.getD_some]
      rw [stringsCut_of_mem s hin]
      simp [hb]
    · intro hin hb ha
      simp only [roleAndDB]
      rw [if_neg h, if_neg hid, hs]
      simp only [Option.getD_some]
      rw [stringsCut_of_mem s hin]
      simp [hb, ha]
    · intro hin hb ha
      simp only [roleAndDB]
      rw [if_neg h, if_neg hid, hs]
      simp only [Option.getD_some]
      rw [stringsCut_of_mem s hin]
      simp [hb, ha]

/-- C2: when the name and database attributes are not both non-null and
non-empty, `userAndDB`/`roleAndDB` fail with the missing-identity error if
`id` is null or empty; otherwise the id is split at its first `.`, failing
with the malformed-identity errors exactly when there is no dot, the
database portion (before the first dot) is empty, or the name portion
(after it) is empty, and returning `(name portion, database portion)` in
every remaining case. -/
theorem c2_resolve_failure_modes (u : UserResourceModel) (r : RoleResourceModel)
    (hu : ¬(¬u.user.isNone ∧ ¬u.db.isNone ∧ u.user.getD "" ≠ "" ∧ u.db.getD "" ≠ ""))
    (hr : ¬(¬r.role.isNone ∧ ¬r.db.isNone ∧ r.role.getD "" ≠ "" ∧ r.db.getD "" ≠ "")) :
    ((u.id.isNone ∨ u.id.getD "" = "" → userAndDB u = Except.error "missing user ID") ∧
     ∀ s, u.id = some s → s ≠ "" →
      ('.' ∉ s.toList →
        userAndDB u = Except.error "malformed user ID, missing dot separator on db and user") ∧
      ('.' ∈ s.toList → beforeDot s = "" →
        userAndDB u = Except.error "malformed user ID, missing db") ∧
      ('.' ∈ s.toList → beforeDot s ≠ "" → afterDot s = "" →
        userAndDB u = Except.error "malformed user ID, missing user") ∧
      ('.' ∈ s.toList → beforeDot s ≠ "" → afterDot s ≠ "" →
        userAndDB u = Except.ok (afterDot s, beforeDot s))) ∧
    ((r.id.isNone ∨ r.id.getD "" = "" → roleAndDB r = Except.error "missing role ID") ∧
     ∀ s, r.id = some s → s ≠ "" →
      ('.' ∉ s.toList →
        roleAndDB r = Except.error "malformed role ID, missing dot separator on db and role") ∧
      ('.' ∈ s.toList → beforeDot s = "" →
        roleAndDB r = Except.error "malformed role ID, missing db") ∧
      ('.' ∈ s.toList → beforeDot s ≠ "" → afterDot s = "" →
        roleAndDB r = Except.error "malformed role ID, missing role") ∧
      ('.' ∈ s.toList → beforeDot s ≠ "" → afterDot s ≠ "" →
        roleAndDB r = Except.ok (afterDot s, beforeDot s))) :=
  ⟨userAndDB_fallback u hu, roleAndDB_fallback r hr⟩

/-- C2 witness: the failure modes and the success case at concrete inputs. -/
theorem c2_resolve_failure_modes_witness :
    userAndDB (importUserModel "") = Except.error "missing user ID" ∧
    userAndDB (importUserModel "nodot") =
      Except.error "malformed user ID, missing dot separator on db and user" ∧
    userAndDB (importUserModel ".x") = Except.error "malformed user ID, missing db" ∧
    userAndDB (importUserModel "x.") = Except.error "malformed user ID, missing user" ∧
    userAndDB (importUserModel "sales.alice") = Except.ok ("alice", "sales") ∧
    roleAndDB (importRoleModel "") = Except.error "missing role ID" := by
  have h0 := c2_resolve_failure_modes (importUserModel "") (importRoleModel "")
    (by simp [importUserModel]) (by simp [importRoleModel])
  have h1 := c2_resolve_failure_modes (importUserModel "nodot") (importRoleModel "x")
    (by simp [importUserModel]) (by simp [importRoleModel])
  have h2 := c2_resolve_failure_modes (importUserModel ".x") (importRoleModel "x")
    (by simp [importUserModel]) (by simp [importRoleModel])
  have h3 := c2_resolve_failure_modes (importUserModel "x.") (importRoleModel "x")
    (by simp [importUserModel]) (by simp [importRoleModel])
  have h4 := c2_resolve_failure_modes (importUserModel "sales.alice") (importRoleModel "x")
    (by simp [importUserModel]) (by simp [importRoleModel])
  refine ⟨h0.1.1 (by simp [importUserModel]), ?_, ?_, ?_, ?_, h0.2.1 (by simp [importRoleModel])⟩
  · exact (h1.1.2 "nodot" rfl (by decide)).1 (by decide)
  · exact (h2.1.2 ".x" rfl (by decide)).2.1 (by decide) (by decide)
  · exact ((h3.1.2 "x." rfl (by decide)).2.2.1 (by decide) (by decide) (by decide))
  · exact ((h4.1.2 "sales.alice" rfl (by decide)).2.2.2 (by decide) (by decide) (by decide)).trans rfl

/-- C3: the resource-union decode probes `system_buckets`, then
`anyResource`, then `cluster`, then falls back to decoding the whole
document as a collection, first match winning; in particular every document
with a string-valued `system_buckets` field decodes as the system-buckets
variant no matter what other fields are present. -/
theorem c3_discriminator_priority (m : List (String × BVal)) :
    (∀ s, m.lookup "system_buckets" = some (BVal.str s) →
      unmarshalResource m = Except.ok (Resource.resourceSystemBuckets s)) ∧
    (m.lookup "system_buckets" = none →
      ∀ b, m.lookup "anyResource" = some (BVal.bool b) →
        unmarshalResource m = Except.ok (Resource.resourceAny b)) ∧
    (m.lookup "system_buckets" = none → m.lookup "anyResource" = none →
      ∀ b, m.lookup "cluster" = some (BVal.bool b) →
        unmarshalResource m = Except.ok (Resource.resourceCluster b)) ∧
    (m.lookup "system_buckets" = none → m.lookup "anyResource" = none →
      m.lookup "cluster" = none →
        unmarshalResource m = unmarshalResourceCollection m) := by
  refine ⟨?_, ?_, ?_, ?_⟩
  · intro s hs
    simp [unmarshalResource, hs]
  · intro hsb b hany
    simp [unmarshalResource, hsb, hany]
  · intro hsb hany b hcl
    simp [unmarshalResource, hsb, hany, hcl]
  · intro hsb hany hcl
    simp [unmarshalResource, hsb, hany, hcl]

/-- C3 witness: a document with both `system_buckets` and `cluster` decodes
as the system-buckets variant, not the cluster variant. -/
theorem c3_discriminator_priority_witness :
    unmarshalResource [("cluster", BVal.bool true), ("system_buckets", BVal.str "pat")] =
      Except.ok (Resource.resourceSystemBuckets "pat") :=
  (c3_discriminator_priority
    [("cluster", BVal.bool true), ("system_buckets", BVal.str "pat")]).1 "pat" rfl

/-- C4: decoding the document produced by encoding any of the four resource
variants yields exactly that variant (which covers the boundary collection
instances with empty database and/or collection strings). -/
theorem c4_resource_union_roundtrip (v : Resource) :
    unmarshalResource (marshalResource v) = Except.ok v := by
  cases v <;> rfl

/-- C5: when the first matching discriminator field is present with a value
of the wrong primitive type, decode fails with the invalid-field-type error
naming that field and the observed Go type, and no variant is produced. -/
theorem c5_type_mismatch (m : List (String × BVal)) :
    (∀ v, m.lookup "system_buckets" = some v → (∀ s, v ≠ BVal.str s) →
      unmarshalResource m =
        Except.error ("resource.system_buckets must be string, got " ++ goTypeName v)) ∧
    (m.lookup "system_buckets" = none →
      ∀ v, m.lookup "anyResource" = some v → (∀ b, v ≠ BVal.bool b) →
        unmarshalResource m =
          Except.error ("resource.anyResource must be bool, got " ++ goTypeName v)) ∧
    (m.lookup "system_buckets" = none → m.lookup "anyResource" = none →
      ∀ v, m.lookup "cluster" = some v → (∀ b, v ≠ BVal.bool b) →
        unmarshalResource m =
          Except.error ("resource.cluster must be bool, got " ++ goTypeName v)) := by
  refine ⟨?_, ?_, ?_⟩
  · intro v hv hne
    cases v with
    | str s => exact absurd rfl (hne s)
    | bool b => simp [unmarshalResource, hv]
    | int n => simp [unmarshalResource, hv]
    | doc fields => simp [unmarshalResource, hv]
  · intro hsb v hv hne
    cases v with
    | bool b => exact absurd rfl (hne b)
    | str s => simp [unmarshalResource, hsb, hv]
    | int n => simp [unmarshalResource, hsb, hv]
    | doc fields => simp [unmarshalResource, hsb, hv]
  · intro hsb hany v hv hne
    cases v with
    | bool b => exact absurd rfl (hne b)
    | str s => simp [unmarshalResource, hsb, hany, hv]
    | int n => simp [unmarshalResource, hsb, hany, hv]
    | doc fields => simp [unmarshalResource, hsb, hany, hv]

/-- C5 witness: `{"cluster": "not-a-bool"}` fails with the invalid-type
error naming `cluster` and the observed type `string`. -/
theorem c5_type_mismatch_witness :
    unmarshalResource [("cluster", BVal.str "not-a-bool")] =
      Except.error "resource.cluster must be bool, got string" :=
  ((c5_type_mismatch [("cluster", BVal.str "not-a-bool")]).2.2 rfl rfl
    (BVal.str "not-a-bool") rfl (fun b h => BVal.noConfusion h)).trans rfl

theorem toTypesUserRoleResource_spec (oldI : UserRoleResourceModel) (f : RoleDBRef) :
    (toTypesUserRoleResource oldI f).role = some f.role ∧
    (oldI.db = none → (toTypesUserRoleResource oldI f).db = none) ∧
    (oldI.db ≠ none → (toTypesUserRoleResource oldI f).db = some f.db) := by
  cases h : oldI.db <;> simp [toTypesUserRoleResource, h]

theorem toTypesRoleRefResource_spec (oldI : RoleRefResourceModel) (f : RoleDBRef) :
    (toTypesRoleRefResource oldI f).role = some f.role ∧
    (oldI.db = none → (toTypesRoleRefResource oldI f).db = none) ∧
    (oldI.db ≠ none → (toTypesRoleRefResource oldI f).db = some f.db) := by
  cases h : oldI.db <;> simp [toTypesRoleRefResource, h]

theorem userSlice_isSome_iff (olds : List UserRoleResourceModel) (roles : List RoleDBRef) :
    (∃ v, toTypesUserRoleResourceSlice olds roles = some v) ↔ roles.length ≤ olds.length := by
  induction roles generalizing olds with
  | nil => simp [toTypesUserRoleResourceSlice]
  | cons r rs ih =>
    cases olds with
    | nil => simp [toTypesUserRoleResourceSlice]
    | cons o os =>
      simp only [toTypesUserRoleResourceSlice, List.length_cons, Nat.succ_le_succ_iff]
      rw [← ih os]
      constructor
      · rintro ⟨v, hv⟩
        rcases hmap : toTypesUserRoleResourceSlice os rs with _ | w
        · rw [hmap] at hv; simp at hv
        · exact ⟨w, rfl⟩
      · rintro ⟨w, hw⟩
        exact ⟨toTypesUserRoleResource o r :: w, by rw [hw]; rfl⟩

theorem roleSlice_isSome_iff (olds : List RoleRefResourceModel) (roles : List RoleDBRef) :
    (∃ v, toTypesRoleRefResourceSlice olds roles = some v) ↔ roles.length ≤ olds.length := by
  induction roles generalizing olds with
  | nil => simp [toTypesRoleRefResourceSlice]
  | cons r rs ih =>
    cases olds with
    | nil => simp [toTypesRoleRefResourceSlice]
    | cons o os =>
      simp only [toTypesRoleRefResourceSlice, List.length_cons, Nat.succ_le_succ_iff]
      rw [← ih os]
      constructor
      · rintro ⟨v, hv⟩
        rcases hmap : toTypesRoleRefResourceSlice os rs with _ | w
        · rw [hmap] at hv; simp at hv
        · exact ⟨w, rfl⟩
      · rintro ⟨w, hw⟩
        exact ⟨toTypesRoleRefResource o r :: w, by rw [hw]; rfl⟩

theorem userSlice_length (olds : List UserRoleResourceModel) (roles : List RoleDBRef)
    (v : List UserRoleResourceModel) (h : toTypesUserRoleResourceSlice olds roles = some v) :
    v.length = roles.length := by
  induction roles generalizing olds v with
  | nil =>
    simp only [toTypesUserRoleResourceSlice, Option.some.injEq] at h
    simp [← h]
  | cons r rs ih =>
    cases olds with
    | nil => simp [toTypesUserRoleResourceSlice] at h
    | cons o os =>
      simp only [toTypesUserRoleResourceSlice] at h
      rcases hmap : toTypesUserRoleResourceSlice os rs with _ | w
      · rw [hmap] at h; simp at h
      · rw [hmap] at h
        simp only [Option.map_some', Option.some.injEq] at h
        rw [← h]
        simp [ih os w hmap]

theorem roleSlice_length (olds : List RoleRefResourceModel) (roles : List RoleDBRef)
    (v : List RoleRefResourceModel) (h : toTypesRoleRefResourceSlice olds roles = some v) :
    v.length = roles.length := by
  induction roles generalizing olds v with
  | nil =>
    simp only [toTypesRoleRefResourceSlice, Option.some.injEq] at h
    simp [← h]
  | cons r rs ih =>
    cases olds with
    | nil => simp [toTypesRoleRefResourceSlice] at h
    | cons o os =>
      simp only [toTypesRoleRefResourceSlice] at h
      rcases hmap : toTypesRoleRefResourceSlice os rs with _ | w
      · rw [hmap] at h; simp at h
      · rw [hmap] at h
        simp only [Option.map_some', Option.some.injEq] at h
        rw [← h]
        simp [ih os w hmap]

theorem userSlice_getElem (olds : List UserRoleResourceModel) (roles : List RoleDBRef)
    (merged : List UserRoleResourceModel)
    (h : toTypesUserRoleResourceSlice olds roles = some merged) :
    ∀ (i : Nat) oldI fetchedI, olds[i]? = some oldI → roles[i]? = some fetchedI →
      merged[i]? = some (toTypesUserRoleResource oldI fetchedI) := by
  induction roles generalizing olds merged with
  | nil =>
    intro i oldI fetchedI h1 h2
    simp at h2
  | cons r rs ih =>
    cases olds with
    | nil => simp [toTypesUserRoleResourceSlice] at h
    | cons o os =>
      simp only [toTypesUserRoleResourceSlice] at h
      rcases hmap : toTypesUserRoleResourceSlice os rs with _ | w
      · rw [hmap] at h; simp at h
      · rw [hmap] at h
        simp only [Option.map_some', Option.some.injEq] at h
        intro i oldI fetchedI h1 h2
        cases i with
        | zero =>
          simp only [List.getElem?_cons_zero, Option.some.injEq] at h1 h2
          rw [← h]
          simp [h1, h2]
        | succ n =>
          simp only [List.getElem?_cons_succ] at h1 h2
          rw [← h]
          simpa using ih os w hmap n oldI fetchedI h1 h2

theorem roleSlice_getElem (olds : List RoleRefResourceModel) (roles : List RoleDBRef)
    (merged : List RoleRefResourceModel)
    (h : toTypesRoleRefResourceSlice olds roles = some merged) :
    ∀ (i : Nat) oldI fetchedI, olds[i]? = some oldI → roles[i]? = some fetchedI →
      merged[i]? = some (toTypesRoleRefResource oldI fetchedI) := by
  induction roles generalizing olds merged with
  | nil =>
    intro i oldI fetchedI h1 h2
    simp at h2
  | cons r rs ih =>
    cases olds with
    | nil => simp [toTypesRoleRefResourceSlice] at h
    | cons o os =>
      simp only [toTypesRoleRefResourceSlice] at h
      rcases hmap : toTypesRoleRefResourceSlice os rs with _ | w
      · rw [hmap] at h; simp at h
      · rw [hmap] at h
        simp only [Option.map_some', Option.some.injEq] at h
        intro i oldI fetchedI h1 h2
        cases i with
        | zero =>
          simp only [List.getElem?_cons_zero, Option.some.injEq] at h1 h2
          rw [← h]
          simp [h1, h2]
        | succ n =>
          simp only [List.getElem?_cons_succ] at h1 h2
          rw [← h]
          simpa using ih os w hmap n oldI fetchedI h1 h2

theorem applyUser_spec (u : UserResourceModel) (mu : User) (u2 : UserResourceModel)
    (hu : applyUser u mu = some u2) :
    (u2.id = some mu.id ∧ u2.user = some mu.user ∧ u2.db = some mu.db) ∧
    (u.customData = none → u2.customData = none) ∧
    (u.customData ≠ none → u2.customData = some (toTypesStringMap mu.customData)) ∧
    (u.roles = none → u2.roles = none) ∧
    (∀ old, u.roles = some old → ∃ merged,
      toTypesUserRoleResourceSlice old mu.roles = some merged ∧ u2.roles = some merged) ∧
    (u.mechanisms = none → u2.mechanisms = none) ∧
    (u.mechanisms ≠ none → u2.mechanisms = some (toTypesStringSlice mu.mechanisms)) := by
  rcases hrl : u.roles with _ | old
  · simp only [applyUser, hrl] at hu
    have hu2 := Option.some.inj hu
    subst hu2
    refine ⟨⟨rfl, rfl, rfl⟩, ?_, ?_, fun _ => rfl, ?_, ?_, ?_⟩
    · intro h; simp [h]
    · intro h
      rcases hcd : u.customData with _ | cd
      · exact absurd hcd h
      · simp [hcd]
    · intro old h
      cases h
    · intro h; simp [h]
    · intro h
      rcases hm : u.mechanisms with _ | mech
      · exact absurd hm h
      · simp [hm]
  · rcases hs : toTypesUserRoleResourceSlice old mu.roles with _ | merged
    · simp only [applyUser, hrl, hs] at hu
      exact Option.noConfusion hu
    · simp only [applyUser, hrl, hs] at hu
      have hu2 := Option.some.inj hu
      subst hu2
      refine ⟨⟨rfl, rfl, rfl⟩, ?_, ?_, ?_, ?_, ?_, ?_⟩
      · intro h; simp [h]
      · intro h
        rcases hcd : u.customData with _ | cd
        · exact absurd hcd h
        · simp [hcd]
      · intro h
        cases h
      · intro old2 h
        cases h
        exact ⟨merged, hs, rfl⟩
      · intro h; simp [h]
      · intro h
        rcases hm : u.mechanisms with _ | mech
        · exact absurd hm h
        · simp [hm]

theorem applyRole_spec (r : RoleResourceModel) (mr : Role) (r2 : RoleResourceModel)
    (hr : applyRole r mr = Except.ok r2) :
    (r2.id = some mr.id ∧ r2.role = some mr.role ∧ r2.db = some mr.db) ∧
    (r.roles = none → r2.roles = none) ∧
    (∀ old, r.roles = some old → ∃ merged,
      toTypesRoleRefResourceSlice old mr.roles = some merged ∧ r2.roles = some merged) ∧
    (r.privileges = none → r2.privileges = none) ∧
    (r.privileges ≠ none → ∃ privs,
      toTypesPrivilegeResourceSlice mr.privileges = Except.ok privs ∧
      r2.privileges = some privs) := by
  rcases hrl : r.roles with _ | old <;>
    rcases hp : r.privileges with _ | privs
  · simp only [applyRole, hrl, hp] at hr
    have hr2 := Except.ok.inj hr
    subst hr2
    refine ⟨⟨rfl, rfl, rfl⟩, fun _ => rfl, ?_, fun _ => rfl, ?_⟩
    · intro old h
      cases h
    · intro h
      exact absurd rfl h
  · rcases hps : toTypesPrivilegeResourceSlice mr.privileges with e | converted
    · simp only [applyRole, hrl, hp, hps] at hr
      exact Except.noConfusion hr
    · simp only [applyRole, hrl, hp, hps] at hr
      have hr2 := Except.ok.inj hr
      subst hr2
      refine ⟨⟨rfl, rfl, rfl⟩, fun _ => rfl, ?_, ?_, ?_⟩
      · intro old h
        cases h
      · intro h
        cases h
      · intro _
        exact ⟨converted, rfl, rfl⟩
  · rcases hs : toTypesRoleRefResourceSlice old mr.roles with _ | merged
    · simp only [applyRole, hrl, hp, hs] at hr
      exact Except.noConfusion hr
    · simp only [applyRole, hrl, hp, hs] at hr
      have hr2 := Except.ok.inj hr
      subst hr2
      refine ⟨⟨rfl, rfl, rfl⟩, ?_, ?_, fun _ => rfl, ?_⟩
      · intro h
        cases h
      · intro old2 h
        cases h
        exact ⟨merged, hs, rfl⟩
      · intro h
        exact absurd rfl h
  · rcases hs : toTypesRoleRefResourceSlice old mr.roles with _ | merged
    · simp only [applyRole, hrl, hp, hs] at hr
      exact Except.noConfusion hr
    · rcases hps : toTypesPrivilegeResourceSlice mr.privileges with e | converted
      · simp only [applyRole, hrl, hp, hs, hps] at hr
        exact Except.noConfusion hr
      · simp only [applyRole, hrl, hp, hs, hps] at hr
        have hr2 := Except.ok.inj hr
        subst hr2
        refine ⟨⟨rfl, rfl, rfl⟩, ?_, ?_, ?_, ?_⟩
        · intro h
          cases h
        · intro old2 h
          cases h
          exact ⟨merged, hs, rfl⟩
        · intro h
          cases h
        · intro _
          exact ⟨converted, rfl, rfl⟩

/-- C6: in the state merge (`applyUser`/`applyRole`), the scalar identity
fields are always overwritten from the fetched entity, and each
collection-valued optional field (custom data, role references, privileges,
mechanisms) is replaced by the fetched entity's (converted) value when the
prior state's field was non-null and left unset when it was null — so a
prior-unset custom_data stays unset even when the fetched entity carries
custom data, while a prior declared-empty custom_data becomes the fetched
entity's custom data. -/
theorem c6_selective_merge (u : UserResourceModel) (mu : User) (u2 : UserResourceModel)
    (r : RoleResourceModel) (mr : Role) (r2 : RoleResourceModel)
    (hu : applyUser u mu = some u2) (hr : applyRole r mr = Except.ok r2) :
    ((u2.id = some mu.id ∧ u2.user = some mu.user ∧ u2.db = some mu.db) ∧
     (u.customData = none → u2.customData = none) ∧
     (u.customData ≠ none → u2.customData = some (toTypesStringMap mu.customData)) ∧
     (u.roles = none → u2.roles = none) ∧
     (∀ old, u.roles = some old → ∃ merged,
       toTypesUserRoleResourceSlice old mu.roles = some merged ∧ u2.roles = some merged) ∧
     (u.mechanisms = none → u2.mechanisms = none) ∧
     (u.mechanisms ≠ none → u2.mechanisms = some (toTypesStringSlice mu.mechanisms))) ∧
    ((r2.id = some mr.id ∧ r2.role = some mr.role ∧ r2.db = some mr.db) ∧
     (r.roles = none → r2.roles = none) ∧
     (∀ old, r.roles = some old → ∃ merged,
       toTypesRoleRefResourceSlice old mr.roles = some merged ∧ r2.roles = some merged) ∧
     (r.privileges = none → r2.privileges = none) ∧
     (r.privileges ≠ none → ∃ privs,
       toTypesPrivilegeResourceSlice mr.privileges = Except.ok privs ∧
       r2.privileges = some privs)) :=
  ⟨applyUser_spec u mu u2 hu, applyRole_spec r mr r2 hr⟩

/-- C6 witness: a prior state with unset custom data keeps it unset after
merging a fetched user that carries custom data; a prior declared-empty
custom data map becomes the fetched one; a prior-unset privilege list stays
unset despite a fetched privilege. -/
theorem c6_selective_merge_witness :
    applyUser (importUserModel "x")
        ⟨"sales.alice", "alice", "sales", [("k", "v")], [], []⟩ =
      some ⟨some "sales.alice", some "alice", some "sales", none, none, none, none⟩ ∧
    (⟨some "sales.alice", some "alice", some "sales", none, none, none, none⟩ :
      UserResourceModel).customData = none ∧
    applyUser ⟨some "x", none, none, none, some [], none, none⟩
        ⟨"sales.alice", "alice", "sales", [("k", "v")], [], []⟩ =
      some ⟨some "sales.alice", some "alice", some "sales", none,
        some [("k", some "v")], none, none⟩ ∧
    (⟨some "sales.alice", some "alice", some "sales", none, some [("k", some "v")], none,
        none⟩ : UserResourceModel).customData = some (toTypesStringMap [("k", "v")]) ∧
    applyRole (importRoleModel "x")
        ⟨"db.r", "r", "db", [⟨Resource.resourceCluster true, ["anyAction"]⟩], false,
          [], [], []⟩ =
      Except.ok ⟨some "db.r", some "r", some "db", none, none⟩ ∧
    (⟨some "db.r", some "r", some "db", none, none⟩ :
      RoleResourceModel).privileges = none := by
  have hA := c6_selective_merge (importUserModel "x")
    ⟨"sales.alice", "alice", "sales", [("k", "v")], [], []⟩
    ⟨some "sales.alice", some "alice", some "sales", none, none, none, none⟩
    (importRoleModel "x")
    ⟨"db.r", "r", "db", [⟨Resource.resourceCluster true, ["anyAction"]⟩], false, [], [], []⟩
    ⟨some "db.r", some "r", some "db", none, none⟩ rfl rfl
  have hB := c6_selective_merge ⟨some "x", none, none, none, some [], none, none⟩
    ⟨"sales.alice", "alice", "sales", [("k", "v")], [], []⟩
    ⟨some "sales.alice", some "alice", some "sales", none, some [("k", some "v")], none, none⟩
    (importRoleModel "x")
    ⟨"db.r", "r", "db", [⟨Resource.resourceCluster true, ["anyAction"]⟩], false, [], [], []⟩
    ⟨some "db.r", some "r", some "db", none, none⟩ rfl rfl
  exact ⟨rfl, hA.1.2.1 rfl, rfl, hB.1.2.2.1 (by simp), rfl, hA.2.2.2.2.1 rfl⟩

/-- C7: at every position of the positional role-reference merge, the merged
reference's role name is the fetched one, and its database is null whenever
the prior reference at that position had a null database — even though the
fetched reference always carries an explicit database — and is the fetched
database otherwise. -/
theorem c7_roleref_implicit_db_stability :
    (∀ (olds : List UserRoleResourceModel) (roles : List RoleDBRef)
        (merged : List UserRoleResourceModel),
      toTypesUserRoleResourceSlice olds roles = some merged →
      ∀ (i : Nat) oldI fetchedI, olds[i]? = some oldI → roles[i]? = some fetchedI →
        ∃ mi, merged[i]? = some mi ∧ mi.role = some fetchedI.role ∧
          (oldI.db = none → mi.db = none) ∧
          (oldI.db ≠ none → mi.db = some fetchedI.db)) ∧
    (∀ (olds : List RoleRefResourceModel) (roles : List RoleDBRef)
        (merged : List RoleRefResourceModel),
      toTypesRoleRefResourceSlice olds roles = some merged →
      ∀ (i : Nat) oldI fetchedI, olds[i]? = some oldI → roles[i]? = some fetchedI →
        ∃ mi, merged[i]? = some mi ∧ mi.role = some fetchedI.role ∧
          (oldI.db = none → mi.db = none) ∧
          (oldI.db ≠ none → mi.db = some fetchedI.db)) := by
  constructor
  · intro olds roles merged h i oldI fetchedI h1 h2
    exact ⟨toTypesUserRoleResource oldI fetchedI,
      userSlice_getElem olds roles merged h i oldI fetchedI h1 h2,
      (toTypesUserRoleResource_spec oldI fetchedI).1,
      (toTypesUserRoleResource_spec oldI fetchedI).2.1,
      (toTypesUserRoleResource_spec oldI fetchedI).2.2⟩
  · intro olds roles merged h i oldI fetchedI h1 h2
    exact ⟨toTypesRoleRefResource oldI fetchedI,
      roleSlice_getElem olds roles merged h i oldI fetchedI h1 h2,
      (toTypesRoleRefResource_spec oldI fetchedI).1,
      (toTypesRoleRefResource_spec oldI fetchedI).2.1,
      (toTypesRoleRefResource_spec oldI fetchedI).2.2⟩

/-- C7 witness: merging prior `{role:"readWrite"}` (db unset) against
fetched `{role:"readWrite", db:"mydb"}` keeps the database unset. -/
theorem c7_roleref_implicit_db_stability_witness :
    ([(⟨some "readWrite", none⟩ : UserRoleResourceModel)])[0]?.map (fun mi => mi.db) =
      some none ∧
    ([(⟨some "readWrite", none⟩ : RoleRefResourceModel)])[0]?.map (fun mi => mi.db) =
      some none := by
  constructor
  · obtain ⟨mi, h1, h2, h3, h4⟩ := c7_roleref_implicit_db_stability.1
      [⟨some "readWrite", none⟩] [⟨"readWrite", "mydb"⟩] [⟨some "readWrite", none⟩] rfl
      0 ⟨some "readWrite", none⟩ ⟨"readWrite", "mydb"⟩ rfl rfl
    rw [h1, Option.map_some', h3 rfl]
  · obtain ⟨mi, h1, h2, h3, h4⟩ := c7_roleref_implicit_db_stability.2
      [⟨some "readWrite", none⟩] [⟨"readWrite", "mydb"⟩] [⟨some "readWrite", none⟩] rfl
      0 ⟨some "readWrite", none⟩ ⟨"readWrite", "mydb"⟩ rfl rfl
    rw [h1, Option.map_some', h3 rfl]

/-- C8: the positional merge succeeds (no out-of-bounds access) exactly when
the prior list is at least as long as the fetched list, and a successful
result always has exactly the fetched list's length (extra prior entries are
dropped). -/
theorem c8_positional_merge_totality (oldsU : List UserRoleResourceModel)
    (rolesU : List RoleDBRef) (oldsR : List RoleRefResourceModel) (rolesR : List RoleDBRef) :
    ((∃ v, toTypesUserRoleResourceSlice oldsU rolesU = some v) ↔
      rolesU.length ≤ oldsU.length) ∧
    (∀ v, toTypesUserRoleResourceSlice oldsU rolesU = some v → v.length = rolesU.length) ∧
    ((∃ v, toTypesRoleRefResourceSlice oldsR rolesR = some v) ↔
      rolesR.length ≤ oldsR.length) ∧
    (∀ v, toTypesRoleRefResourceSlice oldsR rolesR = some v → v.length = rolesR.length) :=
  ⟨userSlice_isSome_iff oldsU rolesU, fun v h => userSlice_length oldsU rolesU v h,
   roleSlice_isSome_iff oldsR rolesR, fun v h => roleSlice_length oldsR rolesR v h⟩

/-- C8 witness: a fetched list longer than the prior list fails (Go panic),
and extra prior entries are dropped so the result has the fetched length. -/
theorem c8_positional_merge_totality_witness :
    toTypesUserRoleResourceSlice [] [⟨"r", "d"⟩] = none ∧
    toTypesUserRoleResourceSlice [⟨some "r", none⟩, ⟨some "q", none⟩] [⟨"r", "d"⟩] =
      some [⟨some "r", none⟩] ∧
    toTypesRoleRefResourceSlice [] [⟨"r", "d"⟩] = none := by
  refine ⟨?_, rfl, ?_⟩
  · rcases hx : toTypesUserRoleResourceSlice [] [⟨"r", "d"⟩] with _ | v
    · rfl
    · exact absurd ((c8_positional_merge_totality [] [⟨"r", "d"⟩] [] []).1.mp ⟨v, hx⟩)
        (by decide)
  · rcases hx : toTypesRoleRefResourceSlice [] [⟨"r", "d"⟩] with _ | v
    · rfl
    · exact absurd ((c8_positional_merge_totality [] [] [] [⟨"r", "d"⟩]).2.2.1.mp ⟨v, hx⟩)
        (by decide)

/-- C9: the single-entity lookups return the distinguished not-found error
exactly when the underlying usersInfo/rolesInfo command succeeded
(decodable, acknowledged with ok = 1) with an empty entity list; a non-empty
list returns its first entity with no error. -/
theorem c9_notfound_semantics (ru : Except String UsersInfoResponse)
    (rr : Except String RolesInfoResponse) :
    ((runUsersInfoSingle ru = Except.error MongoError.errNotFound ↔
      ∃ resp, ru = Except.ok resp ∧ resp.ok = 1 ∧ resp.users = []) ∧
     (∀ resp u us, ru = Except.ok resp → resp.ok = 1 → resp.users = u :: us →
       runUsersInfoSingle ru = Except.ok u)) ∧
    ((runRolesInfoSingle rr = Except.error MongoError.errNotFound ↔
      ∃ resp, rr = Except.ok resp ∧ resp.ok = 1 ∧ resp.roles = []) ∧
     (∀ resp r rs, rr = Except.ok resp → resp.ok = 1 → resp.roles = r :: rs →
       runRolesInfoSingle rr = Except.ok r)) := by
  constructor
  · constructor
    · rcases ru with e | resp
      · simp [runUsersInfoSingle, runUsersInfo]
      · by_cases hok : resp.ok = 1
        · rcases hus : resp.users with _ | ⟨u, us⟩
          · simp [runUsersInfoSingle, runUsersInfo, validateResponse, hok, hus]
          · simp [runUsersInfoSingle, runUsersInfo, validateResponse, hok, hus]
        · simp [runUsersInfoSingle, runUsersInfo, validateResponse, hok]
    · intro resp u us h hok hus
      subst h
      simp [runUsersInfoSingle, runUsersInfo, validateResponse, hok, hus]
  · constructor
    · rcases rr with e | resp
      · simp [runRolesInfoSingle, runRolesInfo]
      · by_cases hok : resp.ok = 1
        · rcases hrs : resp.roles with _ | ⟨r, rs⟩
          · simp [runRolesInfoSingle, runRolesInfo, validateResponse, hok, hrs]
          · simp [runRolesInfoSingle, runRolesInfo, validateResponse, hok, hrs]
        · simp [runRolesInfoSingle, runRolesInfo, validateResponse, hok]
    · intro resp r rs h hok hrs
      subst h
      simp [runRolesInfoSingle, runRolesInfo, validateResponse, hok, hrs]

/-- C9 witness: an acknowledged empty response yields not-found; a non-empty
acknowledged response yields its first entity. -/
theorem c9_notfound_semantics_witness :
    runUsersInfoSingle (Except.ok ⟨1, []⟩) = Except.error MongoError.errNotFound ∧
    runUsersInfoSingle (Except.ok ⟨1, [⟨"sales.alice", "alice", "sales", [], [], []⟩]⟩) =
      Except.ok ⟨"sales.alice", "alice", "sales", [], [], []⟩ ∧
    runRolesInfoSingle (Except.ok ⟨1, []⟩) = Except.error MongoError.errNotFound := by
  refine ⟨?_, ?_, ?_⟩
  · exact (c9_notfound_semantics (Except.ok ⟨1, []⟩) (Except.ok ⟨1, []⟩)).1.1.mpr
      ⟨⟨1, []⟩, rfl, rfl, rfl⟩
  · exact (c9_notfound_semantics
      (Except.ok ⟨1, [⟨"sales.alice", "alice", "sales", [], [], []⟩]⟩)
      (Except.ok ⟨1, []⟩)).1.2 ⟨1, [⟨"sales.alice", "alice", "sales", [], [], []⟩]⟩
      ⟨"sales.alice", "alice", "sales", [], [], []⟩ [] rfl rfl rfl
  · exact (c9_notfound_semantics (Except.ok ⟨1, []⟩) (Except.ok ⟨1, []⟩)).2.1.mpr
      ⟨⟨1, []⟩, rfl, rfl, rfl⟩

/-- C10: `toResource` produces the cluster variant only when the cluster
attribute is non-null and true, the any-resource variant only failing that
and when any_resource is non-null and true, and otherwise the collection
variant from the db/collection strings; hence converting
`ResourceCluster{false}` to a model and back does not return
`ResourceCluster{false}` but `Collection{"", ""}`. -/
theorem c10_false_boolean_fallback (r : ResourceResourceModel) :
    ((∃ b, r.toResource = Resource.resourceCluster b) → r.cluster = some true) ∧
    ((∃ b, r.toResource = Resource.resourceAny b) →
      r.cluster ≠ some true ∧ r.anyResource = some true) ∧
    (r.cluster = some true → r.toResource = Resource.resourceCluster true) ∧
    (r.cluster ≠ some true → r.anyResource = some true →
      r.toResource = Resource.resourceAny true) ∧
    (r.cluster ≠ some true → r.anyResource ≠ some true →
      r.toResource = Resource.resourceCollection (r.db.getD "") (r.collection.getD "")) ∧
    (toTypesResourceResource (Resource.resourceCluster false) =
      Except.ok ⟨some false, none, none, none⟩ ∧
     (⟨some false, none, none, none⟩ : ResourceResourceModel).toResource =
      Resource.resourceCollection "" "" ∧
     ∀ m, toTypesResourceResource (Resource.resourceCluster false) = Except.ok m →
       m.toResource ≠ Resource.resourceCluster false) := by
  have hcl : ∀ (o : Option Bool), (¬o.isNone ∧ o.getD false) ↔ o = some true := by
    intro o
    rcases o with _ | b
    · simp
    · rcases b <;> simp
  refine ⟨?_, ?_, ?_, ?_, ?_, rfl, rfl, ?_⟩
  · rintro ⟨b, hb⟩
    by_cases h1 : ¬r.cluster.isNone ∧ r.cluster.getD false
    · exact (hcl r.cluster).mp h1
    · by_cases h2 : ¬r.anyResource.isNone ∧ r.anyResource.getD false
      · rw [ResourceResourceModel.toResource, if_neg h1, if_pos h2] at hb
        cases hb
      · rw [ResourceResourceModel.toResource, if_neg h1, if_neg h2] at hb
        cases hb
  · rintro ⟨b, hb⟩
    by_cases h1 : ¬r.cluster.isNone ∧ r.cluster.getD false
    · rw [ResourceResourceModel.toResource, if_pos h1] at hb
      cases hb
    · by_cases h2 : ¬r.anyResource.isNone ∧ r.anyResource.getD false
      · refine ⟨?_, (hcl r.anyResource).mp h2⟩
        intro hc
        exact h1 ((hcl r.cluster).mpr hc)
      · rw [ResourceResourceModel.toResource, if_neg h1, if_neg h2] at hb
        cases hb
  · intro h
    rw [ResourceResourceModel.toResource, if_pos ((hcl r.cluster).mpr h)]
  · intro h1 h2
    rw [ResourceResourceModel.toResource,
      if_neg (fun hh => h1 ((hcl r.cluster).mp hh)),
      if_pos ((hcl r.anyResource).mpr h2)]
  · intro h1 h2
    rw [ResourceResourceModel.toResource,
      if_neg (fun hh => h1 ((hcl r.cluster).mp hh)),
      if_neg (fun hh => h2 ((hcl r.anyResource).mp hh))]
  · intro m hm
    have hm2 := Except.ok.inj hm
    subst hm2
    intro hbad
    cases hbad

/-- C10 witness: a model with cluster explicitly false (others unset)
converts to the empty collection variant, not the cluster variant. -/
theorem c10_false_boolean_fallback_witness :
    (⟨some false, none, some "d", some "c"⟩ : ResourceResourceModel).toResource =
      Resource.resourceCollection "d" "c" ∧
    (⟨some true, none, none, none⟩ : ResourceResourceModel).toResource =
      Resource.resourceCluster true := by
  constructor
  · exact ((c10_false_boolean_fallback ⟨some false, none, some "d", some "c"⟩).2.2.2.2.1
      (by simp) (by simp)).trans rfl
  · exact (c10_false_boolean_fallback ⟨some true, none, none, none⟩).2.2.1 rfl

end MongodbProvider
